import Mathlib

/-!
Verification development for the FaaSr-synthetic workflow translator.

This file gives a shallow embedding, in Lean 4, of the core of the
repository: the data model (`workflow.py`), the scheduler/translator
(`translator.py`), and the manifest writer (`writer.py`).  Pure Python
functions become Lean functions; Python exceptions (AttributeError,
KeyError, IndexError, ValueError, SystemExit via `quit()`) become an
explicit `Except PyError` result; Python dicts become association
lists; Python floats appearing only in comparisons (task runtimes,
`random.uniform` draws, `python_percentage`) are modelled as rationals;
the seeded global `random` generator is modelled as explicit streams of
draws.  File-system effects of the writer (`os.mkdir`, `json.dump`) are
modelled by returning the two JSON artifacts as values.
-/

namespace FaaSr

/-- Python exceptions that the embedded code can raise. -/
inductive PyError where
  | attributeError
  | keyError
  | indexError
  | valueError
  | systemExit
deriving DecidableEq, Repr

/-- Provider-specific payload of a compute-server object.  Each variant
carries the extra instance attributes assigned by the corresponding
`__init__` in `workflow.py` (`OW_ComputeServer`, `Lambda_ComputeServer`,
`GH_ComputeServer`, `GCP_ComputeServer`, `SLURM_ComputeServer`); `base`
is a plain `ComputeServer` with no extra attributes. -/
inductive ServerPayload where
  | base
  | ow (nmspace : String) (ssl : String) (endpoint : String)
  | aws (region : String) (cpus_per_task : Nat) (memory : Nat)
      (time_limit : Nat) (use_secret_store : Bool)
  | gh (username : String) (action_repo_name : String) (branch : String)
      (use_secret_store : Bool)
  | gcp (nmspace : String) (region : String) (endpoint : String)
      (use_secret_store : Bool) (client_email : String) (token_uri : String)
      (cpus_per_task : Nat) (memory : Nat) (time_limit : Nat)
  | slurm (endpoint : String) (api_version : String) (partition : String)
      (nodes : Nat) (tasks : Nat) (cpus_per_task : Nat) (username : String)
      (memory : Nat) (time_limit : Nat) (working_directory : String)
deriving DecidableEq, Repr

/-- A compute server (`workflow.py`, class `ComputeServer` and its
subclasses): common attributes `name` and `faastype` plus the
variant-specific payload. -/
structure ComputeServer where
  name : String
  faastype : String
  payload : ServerPayload
deriving DecidableEq, Repr

/-- A task of the source WfFormat workflow (`workflow.py`, class `Task`).
`runtime` is non-negative by construction in the source (`__init__`
raises ValueError otherwise); list defaults of `None` become `[]`. -/
structure Task where
  runtime : ℚ
  name : String
  id : String
  children : List String
  parents : List String
  input_files : List String
  output_files : List String
deriving DecidableEq, Repr

/-- The source workflow (`workflow.py`, class `WfFormatWorkflow`): a
file-size manifest (dict, modelled as an association list) and the task
list. -/
structure WfFormatWorkflow where
  files : List (String × Nat)
  tasks : List Task
deriving DecidableEq, Repr

/-- A FaaSr action (`workflow.py`, class `SyntheticFaaSrAction`):
the attributes assigned by `__init__` after its validation check. -/
structure SyntheticFaaSrAction where
  compute_server : ComputeServer
  execution_time : ℚ
  name : String
  input_files : List String
  output_files : List String
  invoke_next : List String
  function_name : String
  action_container : String
  type : String
deriving DecidableEq, Repr

/-- Constructor of `SyntheticFaaSrAction` (`workflow.py` lines 164-186):
raises ValueError when the execution time is negative, otherwise
assigns the attributes. -/
def SyntheticFaaSrAction.make (compute_server : ComputeServer)
    (execution_time : ℚ) (name action_container : String)
    (input_files output_files invoke_next : List String)
    (function_name : String) (type : String) :
    Except PyError SyntheticFaaSrAction :=
  if execution_time < 0 then .error .valueError
  else .ok { compute_server, execution_time, name, input_files,
             output_files, invoke_next, function_name, action_container,
             type }

/-- The target FaaSr workflow (`workflow.py`, class
`SyntheticFaaSrWorkflow`): exactly the attributes assigned by
`__init__`.  Note that `__init__` assigns `compute_servers` (a list);
no attribute named `compute_server` is ever assigned on this class. -/
structure SyntheticFaaSrWorkflow where
  compute_servers : List ComputeServer
  data_store : String
  data_endpoint : String
  bucket : String
  region : String
  writable : String
  files_folder : String
  files : List (String × Nat)
  function_list : List SyntheticFaaSrAction
  start_function : Option SyntheticFaaSrAction
  function_git_repos : List (String × String)
deriving DecidableEq, Repr

/-- Decidable equality of `Except` results, so that concrete runs of
the embedded program can be checked by `decide`. -/
instance {ε α : Type} [DecidableEq ε] [DecidableEq α] :
    DecidableEq (Except ε α) := fun a b =>
  match a, b with
  | .ok x, .ok y =>
    if h : x = y then .isTrue (by rw [h])
    else .isFalse (fun hc => by cases hc; exact h rfl)
  | .error x, .error y =>
    if h : x = y then .isTrue (by rw [h])
    else .isFalse (fun hc => by cases hc; exact h rfl)
  | .ok _, .error _ => .isFalse (fun hc => by cases hc)
  | .error _, .ok _ => .isFalse (fun hc => by cases hc)

/-- Lookup in a Python dict modelled as an association list
(first binding wins; the dicts built by this program have unique keys). -/
def dictGet? {α : Type} (d : List (String × α)) (k : String) : Option α :=
  (d.find? (fun p => p.1 == k)).map (fun p => p.2)

/-- Streams of the pseudo-random draws made by the seeded global
`random` generator: `uniforms i` is the i-th `random.uniform(0, 100)`
draw and `randbits i` the i-th `random.getrandbits(32)` draw.  A fixed
seed of the Python generator determines both streams. -/
structure RandomGen where
  uniforms : Nat → ℚ
  randbits : Nat → Nat

/-- The `compute_servers` argument of `translate_wf_to_faasr`: the
Python function accepts either a single server or a list
(`translator.py` lines 57-59 normalize with an isinstance check).
Calling with a `single` server is the single-provider translation
mode. -/
inductive ComputeServersArg where
  | single (s : ComputeServer)
  | list (ss : List ComputeServer)
deriving DecidableEq, Repr

/-- Normalization of the servers argument (`translator.py` lines 57-59:
`if not isinstance(compute_servers, list): compute_servers =
[compute_servers]`). -/
def normalizeServers : ComputeServersArg → List ComputeServer
  | .single s => [s]
  | .list ss => ss

/-- `sanitize_action_name` (`translator.py` lines 6-16):
`name.lower().replace("_", "-")`.  Since the pattern "_" is a single
character, lowering followed by replacing every underscore with a
hyphen is exactly a per-character map: each character is lowercased
(`Char.toLower` lowers the ASCII range, which is what `str.lower` does
on the identifiers at hand) and each underscore becomes a hyphen. -/
def sanitize_action_name (name : String) : String :=
  String.mk (name.data.map (fun c =>
    let lc := c.toLower
    if lc = '_' then '-' else lc))

/-- Lambda runtime limit in seconds (`translator.py` line 66). -/
def LAMBDA_MAX_RUNTIME : ℚ := 600

/-- The round-robin scan (`translator.py` lines 74-87): the while loop
`while assigned_server is None and attempts < num_servers`, here
recursing on the remaining number of attempts (`fuel`, started at
`servers.length`).  The candidate at `server_index % num_servers` is
taken; the index is incremented; a candidate named "AWS" is skipped
when the task's runtime exceeds `LAMBDA_MAX_RUNTIME`, otherwise it is
accepted.  Returns the accepted server (if any) and the final value of
`server_index`. -/
def scanLoop (servers : List ComputeServer) (t : Task) :
    Nat → Nat → Option ComputeServer × Nat
  | serverIdx, 0 => (none, serverIdx)
  | serverIdx, fuel + 1 =>
    match servers[serverIdx % servers.length]? with
    | none => (none, serverIdx)
    | some candidate =>
      if candidate.name = "AWS" ∧ LAMBDA_MAX_RUNTIME < t.runtime then
        scanLoop servers t (serverIdx + 1) fuel
      else
        (some candidate, serverIdx + 1)

/-- Provider assignment for one task (`translator.py` lines 74-97): the
round-robin scan followed by the fallback — the first server whose name
is not "AWS" (`for server in compute_servers: if server.name != "AWS"`),
else `compute_servers[0]` (IndexError on an empty list). -/
def assignServer (servers : List ComputeServer) (t : Task)
    (serverIdx : Nat) : Except PyError (ComputeServer × Nat) :=
  match scanLoop servers t serverIdx servers.length with
  | (some s, idx) => .ok (s, idx)
  | (none, idx) =>
    match servers.find? (fun s => !(s.name == "AWS")) with
    | some s => .ok (s, idx)
    | none =>
      match servers[0]? with
      | some s => .ok (s, idx)
      | none => .error .indexError

/-- The container resolution table (`server_containers` parameter):
dict mapping server names to dicts mapping the language ("R"/"Python")
to an image; `none` models passing `None`. -/
def Table : Type := List (String × List (String × String))

/-- The fixed default container image (`translator.py` lines 104 and
140). -/
def defaultContainer : String := "ghcr.io/faasr/github-actions-tidyverse:latest"

/-- Container selection (`translator.py` lines 100-104, and identically
lines 137-140 for the synthetic entry): `if server_containers and
name in server_containers: server_containers[name][action_type]` —
truthiness of `None`/empty dict and name membership guard the outer
lookup; the inner lookup can raise KeyError — `else` the default
container. -/
def selectContainer (server_containers : Option Table)
    (serverName actionType : String) : Except PyError String :=
  match server_containers with
  | none => .ok defaultContainer
  | some tbl =>
    if tbl.isEmpty then .ok defaultContainer
    else
      match dictGet? tbl serverName with
      | none => .ok defaultContainer
      | some inner =>
        match dictGet? inner actionType with
        | some img => .ok img
        | none => .error .keyError

/-- The per-task loop of `translate_wf_to_faasr` (`translator.py` lines
69-124): for each task draw the language, assign a server (threading
the shared `server_index` cursor), resolve the container, build the
action with sanitized name and children, and record it as an entry
candidate when it has no parents.  `drawIdx` counts the
`random.uniform` draws made so far.  Returns the function list, the
entry-candidate list (both in task order), and the final cursor and
draw counter. -/
def translateTasks (rng : RandomGen) (servers : List ComputeServer)
    (python_percentage : ℚ) (server_containers : Option Table) :
    List Task → Nat → Nat →
    Except PyError
      (List SyntheticFaaSrAction × List SyntheticFaaSrAction × Nat × Nat)
  | [], serverIdx, drawIdx => .ok ([], [], serverIdx, drawIdx)
  | t :: rest, serverIdx, drawIdx =>
    let action_type :=
      if rng.uniforms drawIdx < python_percentage then "Python" else "R"
    match assignServer servers t serverIdx with
    | .error e => .error e
    | .ok (assigned_server, serverIdx2) =>
      match selectContainer server_containers assigned_server.name
          action_type with
      | .error e => .error e
      | .ok action_container =>
        match SyntheticFaaSrAction.make assigned_server t.runtime
            (sanitize_action_name t.id) action_container
            t.input_files t.output_files
            (t.children.map sanitize_action_name)
            "synthetic_faas_function" action_type with
        | .error e => .error e
        | .ok function =>
          match translateTasks rng servers python_percentage
              server_containers rest serverIdx2 (drawIdx + 1) with
          | .error e => .error e
          | .ok (fns, entries, serverIdx3, drawIdx3) =>
            .ok (function :: fns,
                 (if t.parents.length == 0 then function :: entries
                  else entries),
                 serverIdx3, drawIdx3)

/-- `translate_wf_to_faasr` (`translator.py` lines 19-168): normalize
the servers argument, translate every task (round-robin cursor and
draw counter start at 0), then perform entry normalization: zero entry
candidates aborts (`print` + `quit()`, modelled as SystemExit); one
entry candidate is the start function; several trigger the synthesis
of a root action named `start` + `getrandbits(32)`, with execution
time 0, bound to `compute_servers[0]`, invoking all entry-candidate
names, appended to the function list. -/
def translate_wf_to_faasr (rng : RandomGen) (workflow : WfFormatWorkflow)
    (compute_servers_arg : ComputeServersArg)
    (data_store data_endpoint bucket region writable files_folder : String)
    (funtion_gitrepos : List (String × String))
    (python_percentage : ℚ) (server_containers : Option Table) :
    Except PyError SyntheticFaaSrWorkflow :=
  let compute_servers := normalizeServers compute_servers_arg
  match translateTasks rng compute_servers python_percentage
      server_containers workflow.tasks 0 0 with
  | .error e => .error e
  | .ok (function_list, entry_functions, _, drawIdx) =>
    match entry_functions with
    | [] => .error .systemExit
    | [entry] =>
      .ok { compute_servers, data_store, data_endpoint, bucket, region,
            writable, files_folder, files := workflow.files,
            function_list, start_function := some entry,
            function_git_repos := funtion_gitrepos }
    | _ :: _ :: _ =>
      let rand_num := rng.randbits 0
      let entry_function_names := entry_functions.map (fun a => a.name)
      let entry_type :=
        if rng.uniforms drawIdx < python_percentage then "Python" else "R"
      match compute_servers[0]? with
      | none => .error .indexError
      | some s0 =>
        match selectContainer server_containers s0.name entry_type with
        | .error e => .error e
        | .ok entry_container =>
          match SyntheticFaaSrAction.make s0 0
              ("start" ++ toString rand_num) entry_container [] []
              entry_function_names "synthetic_faas_function" entry_type with
          | .error e => .error e
          | .ok entry =>
            .ok { compute_servers, data_store, data_endpoint, bucket,
                  region, writable, files_folder, files := workflow.files,
                  function_list := function_list ++ [entry],
                  start_function := some entry,
                  function_git_repos := funtion_gitrepos }

/-- A data-store entry of the primary manifest (`writer.py` lines
56-61). -/
structure DataStoreEntry where
  Endpoint : String
  Bucket : String
  Region : String
  Writable : String
deriving DecidableEq, Repr

/-- The `Arguments` object of an `ActionList` entry (`writer.py` lines
70-81). -/
structure ActionArguments where
  execution_time : ℚ
  folder : String
  input_files : List String
  input_size_in_bytes : Nat
  output_size_in_bytes : Nat
  actionid : String
deriving DecidableEq, Repr

/-- An `ActionList` entry of the primary manifest (`writer.py` lines
66-83).  The `Type` key is rendered `Type_` because `Type` is reserved
in Lean. -/
structure ActionEntry where
  FunctionName : String
  FaaSServer : String
  Type_ : String
  Arguments : ActionArguments
  InvokeNext : List String
deriving DecidableEq, Repr

/-- The primary manifest object `faasr_data` built by
`write_faasr_obj_to_json` (`writer.py` lines 18-83).  JSON maps are
association lists. -/
structure Manifest where
  ComputeServers : List (String × List (String × String))
  DataStores : List (String × DataStoreEntry)
  ActionList : List (String × ActionEntry)
  ActionContainers : List (String × String)
  FunctionGitRepo : List (String × String)
  FunctionInvoke : String
  InvocationID : String
  FaaSrLog : String
  LoggingDataStore : String
  DefaultDataStore : String
  FunctionCRANPackage : List (String × List String)
  FunctionGitHubPackage : List (String × List String)
deriving DecidableEq, Repr

/-- Python attribute access `workflow.compute_server` performed at
`writer.py` line 34.  `SyntheticFaaSrWorkflow.__init__` assigns the
attribute `compute_servers` (a list) and never one named
`compute_server`, and no other code of the repository assigns it, so
this access finds no attribute (it raises AttributeError): the lookup
is `none` for every workflow object. -/
def compute_server_attr (_workflow : SyntheticFaaSrWorkflow) :
    Option ComputeServer :=
  none

/-- Attribute `region` of a compute-server object (present on Lambda
and GCP servers). -/
def payloadRegion : ServerPayload → Option String
  | .aws region _ _ _ _ => some region
  | .gcp _ region _ _ _ _ _ _ _ => some region
  | _ => none

/-- Attributes `username`, `action_repo_name`, `branch` of a
compute-server object (present on GitHub-Actions servers; `username`
also on SLURM servers, which however lack the other two). -/
def payloadGhFields : ServerPayload → Option (String × String × String)
  | .gh username repo branch _ => some (username, repo, branch)
  | _ => none

/-- Attributes `namespace` and `endpoint` of a compute-server object
(both present on OpenWhisk and GCP servers). -/
def payloadNamespaceEndpoint : ServerPayload → Option (String × String)
  | .ow nmspace _ endpoint => some (nmspace, endpoint)
  | .gcp nmspace _ endpoint _ _ _ _ _ _ => some (nmspace, endpoint)
  | _ => none

/-- The per-server entry of `ComputeServers` (`writer.py` lines 35-53):
`{"FaaSType": ...}` updated with variant-specific fields selected by a
match on `faastype`; an attribute missing from the actual object is an
AttributeError. -/
def serverEntryFields (server : ComputeServer) :
    Except PyError (List (String × String)) :=
  let base := [("FaaSType", server.faastype)]
  match server.faastype with
  | "GitHubActions" =>
    match payloadGhFields server.payload with
    | some (username, repo, branch) =>
      .ok (base ++ [("UserName", username), ("ActionRepoName", repo),
                    ("Branch", branch)])
    | none => .error .attributeError
  | "Lambda" =>
    match payloadRegion server.payload with
    | some region => .ok (base ++ [("Region", region)])
    | none => .error .attributeError
  | "OpenWhisk" =>
    match payloadNamespaceEndpoint server.payload with
    | some (nmspace, endpoint) =>
      .ok (base ++ [("Namespace", nmspace), ("Endpoint", endpoint)])
    | none => .error .attributeError
  | _ => .ok base

/-- Size aggregation of the writer (`writer.py` lines 74-79):
`sum(workflow.files[file] for file in names)` — a name absent from the
file manifest raises KeyError; the empty list sums to 0. -/
def sumFileSizes (files : List (String × Nat)) :
    List String → Except PyError Nat
  | [] => .ok 0
  | f :: rest =>
    match dictGet? files f with
    | none => .error .keyError
    | some size =>
      match sumFileSizes files rest with
      | .error e => .error e
      | .ok s => .ok (size + s)

/-- The per-action loop of the writer (`writer.py` lines 64-83):
builds the `ActionList` and `ActionContainers` entries for each
function in order, with the sizes aggregated from the file manifest.
`FaaSServer` is the name of the single `server` object obtained at
line 34, not the action's own binding. -/
def buildActions (files : List (String × Nat)) (folder serverName : String) :
    List SyntheticFaaSrAction →
    Except PyError (List (String × ActionEntry) × List (String × String))
  | [] => .ok ([], [])
  | f :: rest =>
    match sumFileSizes files f.input_files with
    | .error e => .error e
    | .ok insize =>
      match sumFileSizes files f.output_files with
      | .error e => .error e
      | .ok outsize =>
        match buildActions files folder serverName rest with
        | .error e => .error e
        | .ok (actionList, actionContainers) =>
          .ok ((f.name,
                { FunctionName := f.function_name,
                  FaaSServer := serverName,
                  Type_ := f.type,
                  Arguments :=
                    { execution_time := f.execution_time,
                      folder := folder,
                      input_files := f.input_files,
                      input_size_in_bytes := insize,
                      output_size_in_bytes := outsize,
                      actionid := f.name },
                  InvokeNext := f.invoke_next }) :: actionList,
               (f.name, f.action_container) :: actionContainers)

/-- `write_faasr_obj_to_json` (`writer.py` lines 9-93): serializes a
workflow to the primary manifest and the file-size manifest (returned
as values; `os.mkdir` and the `json.dump` calls are the file-system
rendering of these two values).  `workflow.start_function.name` (line
24) raises AttributeError when the start function is `None`; the
access `workflow.compute_server` (line 34) raises AttributeError
unconditionally, see `compute_server_attr`. -/
def write_faasr_obj_to_json (workflow : SyntheticFaaSrWorkflow) :
    Except PyError (Manifest × List (String × Nat)) :=
  let data_bucket := workflow.data_store
  match workflow.start_function with
  | none => .error .attributeError
  | some start_function =>
    match compute_server_attr workflow with
    | none => .error .attributeError
    | some server =>
      match serverEntryFields server with
      | .error e => .error e
      | .ok serverFields =>
        match buildActions workflow.files workflow.files_folder server.name
            workflow.function_list with
        | .error e => .error e
        | .ok (actionList, actionContainers) =>
          .ok ({ ComputeServers := [(server.name, serverFields)],
                 DataStores :=
                   [(workflow.data_store,
                     { Endpoint := workflow.data_endpoint,
                       Bucket := workflow.bucket,
                       Region := workflow.region,
                       Writable := workflow.writable })],
                 ActionList := actionList,
                 ActionContainers := actionContainers,
                 FunctionGitRepo := workflow.function_git_repos,
                 FunctionInvoke := start_function.name,
                 InvocationID := "",
                 FaaSrLog := "FaaSrLog",
                 LoggingDataStore := data_bucket,
                 DefaultDataStore := data_bucket,
                 FunctionCRANPackage := [("synthetic_faas_function", [])],
                 FunctionGitHubPackage := [("synthetic_faas_function", [])] },
               workflow.files)

/-! Concrete fixtures used to evaluate the embedded program on small
inputs: a pinned random stream, the default compute servers of
`convert.py` (`create_default_compute_servers`, abridged payloads),
small source workflows, and extraction helpers. -/

/-- A pinned random stream, standing for one fixed seed of the Python
generator: every `uniform(0,100)` draw is 50 and every
`getrandbits(32)` draw is 7. -/
def rng0 : RandomGen := { uniforms := fun _ => 50, randbits := fun _ => 7 }

/-- The GitHub-Actions server of `create_default_compute_servers`. -/
def gh0 : ComputeServer :=
  { name := "GH", faastype := "GitHubActions",
    payload := .gh "Ashish-Ramrakhiani" "FaaSr-workflow-public" "main" true }

/-- The AWS-Lambda server of `create_default_compute_servers`. -/
def aws0 : ComputeServer :=
  { name := "AWS", faastype := "Lambda",
    payload := .aws "us-east-1" 1 512 900 true }

/-- The OpenWhisk server of `create_default_compute_servers`. -/
def ow0 : ComputeServer :=
  { name := "OW", faastype := "OpenWhisk",
    payload := .ow "guest" "False" "ow.faasr.io:31002" }

/-- A Lambda-variant compute server that is not named "AWS". -/
def lambdaL : ComputeServer :=
  { name := "L", faastype := "Lambda",
    payload := .aws "us-east-1" 1 512 900 true }

/-- A GitHub-Actions-variant compute server named "AWS". -/
def ghNamedAWS : ComputeServer :=
  { name := "AWS", faastype := "GitHubActions",
    payload := .gh "u" "r" "main" true }

/-- An empty placeholder workflow, used as the default of `getOkW`. -/
def emptyWorkflow : SyntheticFaaSrWorkflow :=
  { compute_servers := [], data_store := "", data_endpoint := "",
    bucket := "", region := "", writable := "", files_folder := "",
    files := [], function_list := [], start_function := none,
    function_git_repos := [] }

/-- A placeholder action, used as a list-lookup default in witnesses. -/
def emptyAction : SyntheticFaaSrAction :=
  { compute_server := gh0, execution_time := 0, name := "",
    input_files := [], output_files := [], invoke_next := [],
    function_name := "", action_container := "", type := "" }

/-- Extracts the workflow from a successful translation result
(placeholder on error), letting a witness state the success hypothesis
`translate ... = .ok (getOkW (translate ...))` as a closed equation. -/
def getOkW : Except PyError SyntheticFaaSrWorkflow → SyntheticFaaSrWorkflow
  | .ok w => w
  | .error _ => emptyWorkflow

/-- A task with an underscore and upper case in its id and no
parents. -/
def taskC2 : Task :=
  { runtime := 5, name := "My_Task", id := "My_Task", children := [],
    parents := [], input_files := [], output_files := [] }

/-- A one-task source workflow built on `taskC2`. -/
def wfC2 : WfFormatWorkflow := { files := [], tasks := [taskC2] }

/-- The single-provider translation of `wfC2` on the GitHub-Actions
server. -/
def translatedC2 : Except PyError SyntheticFaaSrWorkflow :=
  translate_wf_to_faasr rng0 wfC2 (.single gh0) "My_S3_Bucket"
    "https://s3.us-west-2.amazonaws.com" "faasr-bucket-0001" "us-west-2"
    "true" "synthetic_files"
    [("synthetic_faas_function", "nolcut/FaaSr-synthetic")] 0 none

/-- A task whose runtime exceeds the Lambda ceiling of 600 seconds. -/
def t700 : Task :=
  { runtime := 700, name := "Long", id := "Long_T", children := [],
    parents := [], input_files := [], output_files := [] }

/-- A task whose runtime exceeds 600, used in the C10 witness. -/
def t1000 : Task :=
  { runtime := 1000, name := "VeryLong", id := "Very_Long", children := [],
    parents := [], input_files := [], output_files := [] }

/-- A one-task source workflow built on `t700`. -/
def wfC3 : WfFormatWorkflow := { files := [], tasks := [t700] }

/-- The multi-provider translation of `wfC3` over [AWS, GH]: the ring
starts at the rejecting Lambda server. -/
def translatedC3 : Except PyError SyntheticFaaSrWorkflow :=
  translate_wf_to_faasr rng0 wfC3 (.list [aws0, gh0]) "ds" "de" "bu"
    "re" "wr" "ff" [] 0 none

/-- The action produced for `t700` by `translatedC3`. -/
def actionC3 : SyntheticFaaSrAction :=
  ((getOkW translatedC3).function_list).getD 0 emptyAction

/-- A three-task chain T1 → T2 → T3 (single entry), used for the
fairness witness. -/
def wfC5 : WfFormatWorkflow :=
  { files := [],
    tasks :=
      [{ runtime := 1, name := "T1", id := "T1", children := ["T2"],
         parents := [], input_files := [], output_files := [] },
       { runtime := 2, name := "T2", id := "T2", children := ["T3"],
         parents := ["T1"], input_files := [], output_files := [] },
       { runtime := 3, name := "T3", id := "T3", children := [],
         parents := ["T2"], input_files := [], output_files := [] }] }

/-- The multi-provider translation of `wfC5` over [GH, OW]. -/
def translatedC5 : Except PyError SyntheticFaaSrWorkflow :=
  translate_wf_to_faasr rng0 wfC5 (.list [gh0, ow0]) "ds" "de" "bu"
    "re" "wr" "ff" [] 0 none

/-- A three-task diamond with two roots: A_1 → C_1 and B_1 → C_1. -/
def wfC6 : WfFormatWorkflow :=
  { files := [],
    tasks :=
      [{ runtime := 1, name := "A", id := "A_1", children := ["C_1"],
         parents := [], input_files := [], output_files := [] },
       { runtime := 2, name := "B", id := "B_1", children := ["C_1"],
         parents := [], input_files := [], output_files := [] },
       { runtime := 3, name := "C", id := "C_1", children := [],
         parents := ["A_1", "B_1"], input_files := [], output_files := [] }] }

/-- The multi-provider translation of `wfC6` over [GH, OW]: two entry
candidates trigger the synthetic-root path. -/
def translatedC6 : Except PyError SyntheticFaaSrWorkflow :=
  translate_wf_to_faasr rng0 wfC6 (.list [gh0, ow0]) "ds" "de" "bu"
    "re" "wr" "ff" [] 0 none

/-- A file manifest holding files a (10 bytes) and b (20 bytes). -/
def filesC7 : List (String × Nat) := [("a", 10), ("b", 20)]

/-- An action referencing file "a" and a file name missing from
`filesC7`. -/
def actC7 : SyntheticFaaSrAction :=
  { compute_server := gh0, execution_time := 5, name := "t1",
    input_files := ["a", "missing"], output_files := [],
    invoke_next := [], function_name := "synthetic_faas_function",
    action_container := defaultContainer, type := "R" }

/-- A target workflow whose single action references a file name absent
from the manifest. -/
def wfC7 : SyntheticFaaSrWorkflow :=
  { compute_servers := [gh0], data_store := "My_S3_Bucket",
    data_endpoint := "de", bucket := "bu", region := "re",
    writable := "true", files_folder := "synthetic_files",
    files := filesC7, function_list := [actC7],
    start_function := some actC7,
    function_git_repos := [("synthetic_faas_function", "nolcut/FaaSr-synthetic")] }

/-- A container table mapping server "GH" to an R image only (no
"Python" key). -/
def tableC8 : Table := [("GH", [("R", "imgR")])]

/-- A container table mapping server "GH" to both an R and a Python
image. -/
def tableC8ok : Table := [("GH", [("R", "imgR"), ("Python", "imgP")])]

/-- Translation of `wfC2` over [GH] with `python_percentage = 100`
(every draw selects Python) against the R-only table `tableC8`. -/
def translatedC8 : Except PyError SyntheticFaaSrWorkflow :=
  translate_wf_to_faasr rng0 wfC2 (.list [gh0]) "ds" "de" "bu" "re"
    "wr" "ff" [] 100 (some tableC8)

/-- Translation of `wfC2` over [GH] with `python_percentage = 100`
against the complete table `tableC8ok`. -/
def translatedC8ok : Except PyError SyntheticFaaSrWorkflow :=
  translate_wf_to_faasr rng0 wfC2 (.list [gh0]) "ds" "de" "bu" "re"
    "wr" "ff" [] 100 (some tableC8ok)

/-- The action produced by `translatedC8ok`. -/
def actionC8 : SyntheticFaaSrAction :=
  ((getOkW translatedC8ok).function_list).getD 0 emptyAction

/-- The translate-then-serialize pipeline of `convert.py` on `wfC2`
with the pinned stream `rng0`: translation followed by
`write_faasr_obj_to_json`. -/
def pipelineC9 : Except PyError (Manifest × List (String × Nat)) :=
  translatedC2.bind write_faasr_obj_to_json

/-- A placeholder compute server, used only as the default of list
lookups with `List.getD` in lemma statements. -/
def padServer : ComputeServer := { name := "", faastype := "", payload := .base }

/-! General lemmas about the embedded scheduler. -/

/-- A successful scan strictly advances the cursor. -/
theorem scanLoop_some_lt (servers : List ComputeServer) (t : Task) :
    ∀ fuel idx c j, scanLoop servers t idx fuel = (some c, j) → idx < j := by
  intro fuel
  induction fuel with
  | zero => intro idx c j h; simp [scanLoop] at h
  | succ fuel ih =>
    intro idx c j h
    rw [scanLoop] at h
    split at h
    · simp at h
    · split at h
      · have := ih (idx + 1) c j h
        omega
      · simp at h
        omega

/-- A server accepted by the scan is never one that the eligibility
check rejects for this task. -/
theorem scanLoop_some_not_reject (servers : List ComputeServer) (t : Task) :
    ∀ fuel idx c j, scanLoop servers t idx fuel = (some c, j) →
      ¬(c.name = "AWS" ∧ LAMBDA_MAX_RUNTIME < t.runtime) := by
  intro fuel
  induction fuel with
  | zero => intro idx c j h; simp [scanLoop] at h
  | succ fuel ih =>
    intro idx c j h
    rw [scanLoop] at h
    split at h
    · simp at h
    · rename_i cand heq
      split at h
      · exact ih (idx + 1) c j h
      · rename_i hr
        simp at h
        rw [← h.1]
        exact hr

/-- When the current ring candidate is not rejected, the scan accepts
it at once and advances the cursor by one. -/
theorem scanLoop_accept (servers : List ComputeServer) (t : Task)
    (fuel idx : Nat) (c : ComputeServer)
    (hc : servers[idx % servers.length]? = some c)
    (hnr : ¬(c.name = "AWS" ∧ LAMBDA_MAX_RUNTIME < t.runtime)) :
    scanLoop servers t idx (fuel + 1) = (some c, idx + 1) := by
  rw [scanLoop, hc]
  simp only [hnr, if_neg, not_false_eq_true]

/-- A server returned by the assignment step for a task with runtime
over the Lambda ceiling is never named "AWS", as long as some server of
the ring is not named "AWS". -/
theorem assignServer_no_aws (servers : List ComputeServer) (t : Task)
    (idx : Nat) (s : ComputeServer) (j : Nat)
    (h : assignServer servers t idx = .ok (s, j))
    (hrt : LAMBDA_MAX_RUNTIME < t.runtime)
    (hex : ∃ p ∈ servers, p.name ≠ "AWS") : s.name ≠ "AWS" := by
  rw [assignServer] at h
  cases hsc : scanLoop servers t idx servers.length with
  | mk fst snd =>
    rw [hsc] at h
    cases fst with
    | some c =>
      simp at h
      have hnr := scanLoop_some_not_reject servers t servers.length idx c snd hsc
      intro habs
      rw [← h.1] at habs
      exact hnr ⟨habs, hrt⟩
    | none =>
      cases hf : servers.find? (fun s => !(s.name == "AWS")) with
      | some p =>
        rw [hf] at h
        simp at h
        have := List.find?_some hf
        simp at this
        rw [← h.1]
        exact this
      | none =>
        obtain ⟨q, hq, hqn⟩ := hex
        have := List.find?_eq_none.mp hf q hq
        simp at this
        exact absurd this hqn

/-- When no server of the ring rejects the task, the assignment step
accepts the server at the cursor position and advances the cursor by
one. -/
theorem assignServer_no_reject (servers : List ComputeServer) (t : Task)
    (idx : Nat) (c : ComputeServer)
    (hc : servers[idx % servers.length]? = some c)
    (hnr : ∀ p ∈ servers, ¬(p.name = "AWS" ∧ LAMBDA_MAX_RUNTIME < t.runtime)) :
    assignServer servers t idx = .ok (c, idx + 1) := by
  have hlen : 0 < servers.length := by
    rcases servers with _ | ⟨a, l⟩
    · simp at hc
    · simp
  have hmem : c ∈ servers := by
    have := List.getElem?_eq_some.mp hc
    obtain ⟨hlt, hget⟩ := this
    rw [← hget]
    exact List.getElem_mem hlt
  obtain ⟨k, hk⟩ : ∃ k, servers.length = k + 1 := ⟨servers.length - 1, by omega⟩
  rw [assignServer, hk, scanLoop_accept servers t k idx c hc (hnr c hmem)]

/-- A positive `find?` result is the first element satisfying the
predicate: every earlier element falsifies it. -/
theorem find?_first {α : Type} (p : α → Bool) :
    ∀ (l : List α) (a : α), l.find? p = some a →
      ∃ k : Nat, l[k]? = some a ∧ p a = true ∧
        ∀ j : Nat, j < k → ∀ q, l[j]? = some q → p q = false := by
  intro l
  induction l with
  | nil => intro a h; simp at h
  | cons b l ih =>
    intro a h
    cases hb : p b with
    | true =>
      rw [List.find?_cons, hb] at h
      simp at h
      refine ⟨0, by simp [h], by rw [← h]; exact hb, ?_⟩
      intro j hj; omega
    | false =>
      rw [List.find?_cons, hb] at h
      simp at h
      obtain ⟨k, hk, hpa, hfirst⟩ := ih a h
      refine ⟨k + 1, by simpa using hk, hpa, ?_⟩
      intro j hj q hq
      cases j with
      | zero => simp at hq; rw [← hq]; exact hb
      | succ j' =>
        simp at hq
        exact hfirst j' (by omega) q (by simpa using hq)

/-- Pointwise specification of the task loop: on success it produces
one action per task in task order, with sanitized name and children,
the task's runtime, files, an independently drawn language, a server
produced by the assignment step, and the container resolved for the
assigned server and drawn language; the entry-candidate names are the
sanitized ids of the parentless tasks in task order. -/
theorem translateTasks_ok_spec (rng : RandomGen)
    (servers : List ComputeServer) (pct : ℚ) (sc : Option Table) :
    ∀ (ts : List Task) (s0 d0 : Nat)
      (fns entries : List SyntheticFaaSrAction) (s1 d1 : Nat),
      translateTasks rng servers pct sc ts s0 d0
        = .ok (fns, entries, s1, d1) →
      fns.length = ts.length ∧
      entries.map (fun a => a.name)
        = (ts.filter (fun t => t.parents.length == 0)).map
            (fun t => sanitize_action_name t.id) ∧
      ∀ i t a, ts[i]? = some t → fns[i]? = some a →
        a.name = sanitize_action_name t.id ∧
        a.invoke_next = t.children.map sanitize_action_name ∧
        a.execution_time = t.runtime ∧
        a.input_files = t.input_files ∧
        a.output_files = t.output_files ∧
        a.function_name = "synthetic_faas_function" ∧
        a.type = (if rng.uniforms (d0 + i) < pct then "Python" else "R") ∧
        (∃ idx idx2, assignServer servers t idx = .ok (a.compute_server, idx2)) ∧
        selectContainer sc a.compute_server.name a.type
          = .ok a.action_container := by
  intro ts
  induction ts with
  | nil =>
    intro s0 d0 fns entries s1 d1 h
    rw [translateTasks] at h
    simp at h
    obtain ⟨h1, h2, _⟩ := h
    subst h1; subst h2
    refine ⟨rfl, by simp, ?_⟩
    intro i t a ht _
    simp at ht
  | cons t ts ih =>
    intro s0 d0 fns entries s1 d1 h
    rw [translateTasks] at h
    cases ha : assignServer servers t s0 with
    | error e => rw [ha] at h; simp at h
    | ok p =>
      obtain ⟨assigned, s2⟩ := p
      rw [ha] at h
      simp only [] at h
      cases hcont : selectContainer sc assigned.name
          (if rng.uniforms d0 < pct then "Python" else "R") with
      | error e => rw [hcont] at h; simp at h
      | ok container =>
        rw [hcont] at h
        simp only [] at h
        rw [SyntheticFaaSrAction.make] at h
        by_cases hneg : t.runtime < 0
        · rw [if_pos hneg] at h; simp at h
        · rw [if_neg hneg] at h
          simp only [] at h
          cases hrec : translateTasks rng servers pct sc ts s2 (d0 + 1) with
          | error e => rw [hrec] at h; simp at h
          | ok q =>
            obtain ⟨fns', entries', s3, d3⟩ := q
            rw [hrec] at h
            simp at h
            obtain ⟨hfns, hentries, hs1, hd1⟩ := h
            obtain ⟨hlen, hmap, hpt⟩ :=
              ih s2 (d0 + 1) fns' entries' s3 d3 hrec
            subst hfns
            refine ⟨by simp [hlen], ?_, ?_⟩
            · subst hentries
              by_cases hpar : t.parents.length == 0
              · rw [List.filter_cons_of_pos (by simpa using hpar)]
                have hpar' : t.parents = [] := by
                  simpa [List.length_eq_zero] using hpar
                simp [hpar', hmap]
              · rw [List.filter_cons_of_neg (by simpa using hpar)]
                have hpar' : ¬t.parents = [] := by
                  simpa [List.length_eq_zero] using hpar
                simp [hpar', hmap]
            · intro i t' a' ht' ha'
              cases i with
              | zero =>
                simp at ht' ha'
                subst ht'
                rw [← ha']
                refine ⟨rfl, rfl, rfl, rfl, rfl, rfl, by simp, ?_, ?_⟩
                · exact ⟨s0, s2, ha⟩
                · simpa using hcont
              | succ i' =>
                simp only [List.getElem?_cons_succ] at ht' ha'
                have := hpt i' t' a' ht' ha'
                have harith : d0 + 1 + i' = d0 + (i' + 1) := by omega
                rw [harith] at this
                exact this

/-- Decomposition of a successful top-level translation: the task loop
succeeded, and either there was exactly one entry candidate — then the
function list is exactly the task actions and the start function is
that candidate — or there were at least two — then a synthetic root
with execution time 0, bound to the first configured server, invoking
all entry-candidate names, is appended and is the start function. -/
theorem translate_ok_parts (rng : RandomGen) (workflow : WfFormatWorkflow)
    (arg : ComputeServersArg)
    (ds de bu re wr ff : String) (repos : List (String × String))
    (pct : ℚ) (sc : Option Table) (W : SyntheticFaaSrWorkflow)
    (hok : translate_wf_to_faasr rng workflow arg ds de bu re wr ff
      repos pct sc = .ok W) :
    ∃ fns entries s1 d1,
      translateTasks rng (normalizeServers arg) pct sc workflow.tasks 0 0
        = .ok (fns, entries, s1, d1) ∧
      W.compute_servers = normalizeServers arg ∧
      W.files = workflow.files ∧
      ((∃ e, entries = [e] ∧ W.function_list = fns ∧
          W.start_function = some e) ∨
       (∃ e, 2 ≤ entries.length ∧ W.function_list = fns ++ [e] ∧
          W.start_function = some e ∧
          e.execution_time = 0 ∧
          e.invoke_next = entries.map (fun a => a.name) ∧
          e.name = "start" ++ toString (rng.randbits 0) ∧
          (normalizeServers arg)[0]? = some e.compute_server)) := by
  rw [translate_wf_to_faasr] at hok
  cases htt : translateTasks rng (normalizeServers arg) pct sc
      workflow.tasks 0 0 with
  | error e => rw [htt] at hok; simp at hok
  | ok q =>
    obtain ⟨fns, entries, s1, d1⟩ := q
    rw [htt] at hok
    simp only [] at hok
    refine ⟨fns, entries, s1, d1, rfl, ?_⟩
    cases entries with
    | nil => simp at hok
    | cons e1 rest =>
      cases rest with
      | nil =>
        simp at hok
        rw [← hok]
        exact ⟨rfl, rfl, Or.inl ⟨e1, rfl, rfl, rfl⟩⟩
      | cons e2 rest2 =>
        simp only [] at hok
        cases hs0 : (normalizeServers arg)[0]? with
        | none => rw [hs0] at hok; simp at hok
        | some s0 =>
          rw [hs0] at hok
          simp only [] at hok
          cases hcont : selectContainer sc s0.name
              (if rng.uniforms d1 < pct then "Python" else "R") with
          | error e => rw [hcont] at hok; simp at hok
          | ok container =>
            rw [hcont] at hok
            simp only [] at hok
            rw [SyntheticFaaSrAction.make] at hok
            rw [if_neg (by norm_num)] at hok
            simp at hok
            rw [← hok]
            exact ⟨rfl, rfl, Or.inr ⟨_, by simp, rfl, rfl, rfl, rfl, rfl, by simp [hs0]⟩⟩

/-- When no server of the ring ever rejects any task of the list, the
task loop assigns the servers strictly in ring order: the action of the
i-th task is bound to the server at ring position `(s0 + i) mod m`. -/
theorem translateTasks_trace (rng : RandomGen)
    (servers : List ComputeServer) (pct : ℚ) (sc : Option Table)
    (hne : servers ≠ []) :
    ∀ (ts : List Task) (s0 d0 : Nat)
      (fns entries : List SyntheticFaaSrAction) (s1 d1 : Nat),
      translateTasks rng servers pct sc ts s0 d0
        = .ok (fns, entries, s1, d1) →
      (∀ t ∈ ts, ∀ p ∈ servers,
        ¬(p.name = "AWS" ∧ LAMBDA_MAX_RUNTIME < t.runtime)) →
      fns.map (fun a => a.compute_server)
        = (List.range ts.length).map
            (fun i => servers.getD ((s0 + i) % servers.length) padServer) := by
  intro ts
  induction ts with
  | nil =>
    intro s0 d0 fns entries s1 d1 h _
    rw [translateTasks] at h
    simp at h
    rw [h.1]
    simp
  | cons t ts ih =>
    intro s0 d0 fns entries s1 d1 h hnr
    have hlen : 0 < servers.length := List.length_pos.mpr hne
    have hmod : s0 % servers.length < servers.length := Nat.mod_lt _ hlen
    have hc : servers[s0 % servers.length]?
        = some (servers.getD (s0 % servers.length) padServer) := by
      rw [List.getD_eq_getElem?_getD, List.getElem?_eq_getElem hmod]
      simp
    have ha := assignServer_no_reject servers t s0 _ hc
      (fun p hp => hnr t (by simp) p hp)
    rw [translateTasks, ha] at h
    simp only [] at h
    cases hcont : selectContainer sc
        (servers.getD (s0 % servers.length) padServer).name
        (if rng.uniforms d0 < pct then "Python" else "R") with
    | error e => rw [hcont] at h; simp at h
    | ok container =>
      rw [hcont] at h
      simp only [] at h
      rw [SyntheticFaaSrAction.make] at h
      by_cases hneg : t.runtime < 0
      · rw [if_pos hneg] at h; simp at h
      · rw [if_neg hneg] at h
        simp only [] at h
        cases hrec : translateTasks rng servers pct sc ts (s0 + 1) (d0 + 1) with
        | error e => rw [hrec] at h; simp at h
        | ok q =>
          obtain ⟨fns', entries', s3, d3⟩ := q
          rw [hrec] at h
          simp at h
          obtain ⟨hfns, _, _, _⟩ := h
          subst hfns
          have htail := ih (s0 + 1) (d0 + 1) fns' entries' s3 d3 hrec
            (fun t' ht' p hp => hnr t' (by simp [ht']) p hp)
          simp only [List.length_cons, List.range_succ_eq_map,
            List.map_cons, List.map_map, List.cons.injEq]
          constructor
          · simp [List.getD_eq_getElem?_getD]
          · rw [htail]
            apply List.map_congr_left
            intro i _
            simp only [Function.comp]
            congr 2
            omega

/-- Successor of a Euclidean remainder: `(n+1) % m` wraps to 0 exactly
when `n % m` was the last residue. -/
theorem succ_mod_eq (n m : Nat) (hm : 0 < m) :
    (n + 1) % m = if n % m + 1 = m then 0 else n % m + 1 := by
  have hr : n % m < m := Nat.mod_lt _ hm
  have hsplit := Nat.div_add_mod n m
  have hms : m * (n / m + 1) = m * (n / m) + m := Nat.mul_succ m (n / m)
  by_cases h : n % m + 1 = m
  · rw [if_pos h]
    have he : n + 1 = m * (n / m + 1) := by omega
    rw [he, Nat.mul_mod_right]
  · rw [if_neg h]
    have hlt : n % m + 1 < m := by omega
    calc (n + 1) % m = (m * (n / m) + (n % m + 1)) % m := by
          rw [← Nat.add_assoc, hsplit]
      _ = (n % m + 1) % m := by rw [Nat.mul_add_mod]
      _ = n % m + 1 := Nat.mod_eq_of_lt hlt

/-- Successor of a Euclidean quotient: `(n+1) / m` increments exactly
when `n % m` was the last residue. -/
theorem succ_div_eq (n m : Nat) (hm : 0 < m) :
    (n + 1) / m = if n % m + 1 = m then n / m + 1 else n / m := by
  have hr : n % m < m := Nat.mod_lt _ hm
  have hsplit := Nat.div_add_mod n m
  have hms : m * (n / m + 1) = m * (n / m) + m := Nat.mul_succ m (n / m)
  by_cases h : n % m + 1 = m
  · rw [if_pos h]
    have he : n + 1 = m * (n / m + 1) := by omega
    rw [he, Nat.mul_div_cancel_left _ hm]
  · rw [if_neg h]
    have hlt : n % m + 1 < m := by omega
    have he : n + 1 = m * (n / m) + (n % m + 1) := by omega
    rw [he, Nat.mul_add_div hm, Nat.div_eq_of_lt hlt]
    omega

/-- Counting residues below `n`: for `j < m`, the number of `i < n`
with `i % m = j` is `n / m`, plus one when `j < n % m`. -/
theorem countP_range_mod (m j : Nat) (hj : j < m) :
    ∀ n, ((List.range n).countP (fun i => decide (i % m = j)))
      = n / m + (if j < n % m then 1 else 0) := by
  have hm : 0 < m := by omega
  intro n
  induction n with
  | zero => simp
  | succ n ihn =>
    have hr : n % m < m := Nat.mod_lt _ hm
    rw [List.range_succ, List.countP_append, ihn, succ_mod_eq n m hm,
      succ_div_eq n m hm]
    simp only [List.countP_cons, List.countP_nil, decide_eq_true_eq]
    split_ifs <;> omega

/-- Ceiling division expressed from floor division: `(n + m - 1) / m`
is `n / m` when `m` divides `n` and `n / m + 1` otherwise. -/
theorem ceil_div_eq (n m : Nat) (hm : 0 < m) :
    (n + m - 1) / m = if n % m = 0 then n / m else n / m + 1 := by
  have hr : n % m < m := Nat.mod_lt _ hm
  have hsplit := Nat.div_add_mod n m
  have hms : m * (n / m + 1) = m * (n / m) + m := Nat.mul_succ m (n / m)
  by_cases h : n % m = 0
  · rw [if_pos h]
    have he : n + m - 1 = m * (n / m) + (m - 1) := by omega
    rw [he, Nat.mul_add_div hm,
      Nat.div_eq_of_lt (show m - 1 < m by omega)]
    omega
  · rw [if_neg h]
    have he : n + m - 1 = m * (n / m + 1) + (n % m - 1) := by omega
    rw [he, Nat.mul_add_div hm,
      Nat.div_eq_of_lt (show n % m - 1 < m by omega)]

/-- Pointwise description of the i-th task action of a successful
top-level translation (the draw counter starts at 0, so the i-th task
consumes the i-th uniform draw). -/
theorem translate_ok_pointwise (rng : RandomGen)
    (workflow : WfFormatWorkflow) (arg : ComputeServersArg)
    (ds de bu re wr ff : String) (repos : List (String × String))
    (pct : ℚ) (sc : Option Table) (W : SyntheticFaaSrWorkflow)
    (hok : translate_wf_to_faasr rng workflow arg ds de bu re wr ff
      repos pct sc = .ok W) :
    ∀ i t a, workflow.tasks[i]? = some t → W.function_list[i]? = some a →
      a.name = sanitize_action_name t.id ∧
      a.invoke_next = t.children.map sanitize_action_name ∧
      a.execution_time = t.runtime ∧
      a.input_files = t.input_files ∧
      a.output_files = t.output_files ∧
      a.function_name = "synthetic_faas_function" ∧
      a.type = (if rng.uniforms i < pct then "Python" else "R") ∧
      (∃ idx idx2, assignServer (normalizeServers arg) t idx
        = .ok (a.compute_server, idx2)) ∧
      selectContainer sc a.compute_server.name a.type
        = .ok a.action_container := by
  obtain ⟨fns, entries, s1, d1, htt, hcs, hfiles, hcase⟩ :=
    translate_ok_parts rng workflow arg ds de bu re wr ff repos pct sc W hok
  obtain ⟨hlen, hmap, hpt⟩ :=
    translateTasks_ok_spec rng (normalizeServers arg) pct sc
      workflow.tasks 0 0 fns entries s1 d1 htt
  intro i t a ht ha
  obtain ⟨hi, _⟩ := List.getElem?_eq_some.mp ht
  have hfa : fns[i]? = some a := by
    rcases hcase with ⟨e, _, hfl, _⟩ | ⟨e, _, hfl, _⟩
    · rw [hfl] at ha; exact ha
    · rw [hfl, List.getElem?_append,
        if_pos (show i < fns.length by omega)] at ha
      exact ha
  have := hpt i t a ht hfa
  simpa using this

/-- C1: the claim says that serializing any TargetGraph with a
non-empty providers list succeeds and yields one `ComputeServers` entry
per provider.  On the code this fails: `write_faasr_obj_to_json` reads
`workflow.compute_server`, an attribute `SyntheticFaaSrWorkflow` never
defines (its `__init__` assigns `compute_servers`), so serialization
raises AttributeError for every workflow — no manifest and no
`ComputeServers` entries are ever produced. -/
theorem C1_manifest_writer_always_fails (w : SyntheticFaaSrWorkflow) :
    write_faasr_obj_to_json w = .error .attributeError := by
  cases h : w.start_function <;>
    simp [write_faasr_obj_to_json, compute_server_attr, h]

/-- C2 counterexample: in single-provider mode a task id "My_Task"
yields an action named "my-task" — lowercased with the underscore
replaced by a hyphen — not the verbatim task id, refuting the claim
that the single-provider path preserves the task id verbatim. -/
theorem C2_counterexample_not_verbatim :
    translatedC2 = .ok (getOkW translatedC2) ∧
    (getOkW translatedC2).function_list.map (fun a => a.name)
      = ["my-task"] ∧
    "my-task" ≠ "My_Task" := by
  refine ⟨by decide, by decide, by decide⟩

/-- C2 (amended): in the single-provider translation mode every
produced action's name is `sanitize_action_name` of its task id —
lowercased with underscores replaced by hyphens, exactly as in
multi-provider mode — and its `invoke_next` entries are the sanitized
children ids; the task id is not preserved verbatim. -/
theorem C2_single_provider_sanitizes (rng : RandomGen)
    (workflow : WfFormatWorkflow) (s : ComputeServer)
    (ds de bu re wr ff : String) (repos : List (String × String))
    (pct : ℚ) (sc : Option Table) (W : SyntheticFaaSrWorkflow)
    (hok : translate_wf_to_faasr rng workflow (.single s) ds de bu re wr ff
      repos pct sc = .ok W) :
    ∀ (i : Nat) (t : Task) (a : SyntheticFaaSrAction),
      workflow.tasks[i]? = some t → W.function_list[i]? = some a →
      a.name = sanitize_action_name t.id ∧
      a.invoke_next = t.children.map sanitize_action_name := by
  intro i t a ht ha
  have := translate_ok_pointwise rng workflow (.single s) ds de bu re wr ff
    repos pct sc W hok i t a ht ha
  exact ⟨this.1, this.2.1⟩

/-- Witness for the amended C2 at the concrete single-provider run
`translatedC2`. -/
theorem C2_single_provider_sanitizes_witness :
    ((getOkW translatedC2).function_list.getD 0 emptyAction).name
      = sanitize_action_name "My_Task" ∧
    ((getOkW translatedC2).function_list.getD 0 emptyAction).invoke_next
      = [].map sanitize_action_name := by
  have h := C2_single_provider_sanitizes rng0 wfC2 gh0 "My_S3_Bucket"
    "https://s3.us-west-2.amazonaws.com" "faasr-bucket-0001" "us-west-2"
    "true" "synthetic_files"
    [("synthetic_faas_function", "nolcut/FaaSr-synthetic")] 0 none
    (getOkW translatedC2) (by decide) 0 taskC2
    (((getOkW translatedC2).function_list).getD 0 emptyAction)
    (by decide) (by decide)
  exact ⟨h.1, h.2⟩

/-- C3: in multi-provider mode, every task whose runtime exceeds 600 is
bound to a provider whose eligibility predicate does not reject
runtimes over 600 (on this code, one not named "AWS"), provided at
least one provider in the ring is not named "AWS". -/
theorem C3_long_tasks_avoid_rejecting_provider (rng : RandomGen)
    (workflow : WfFormatWorkflow) (servers : List ComputeServer)
    (ds de bu re wr ff : String) (repos : List (String × String))
    (pct : ℚ) (sc : Option Table) (W : SyntheticFaaSrWorkflow)
    (hok : translate_wf_to_faasr rng workflow (.list servers) ds de bu re
      wr ff repos pct sc = .ok W)
    (hex : ∃ p ∈ servers, p.name ≠ "AWS") :
    ∀ (i : Nat) (t : Task) (a : SyntheticFaaSrAction),
      workflow.tasks[i]? = some t → W.function_list[i]? = some a →
      (600 : ℚ) < t.runtime → a.compute_server.name ≠ "AWS" := by
  intro i t a ht ha hrt
  obtain ⟨idx, idx2, hassign⟩ :=
    (translate_ok_pointwise rng workflow (.list servers) ds de bu re wr ff
      repos pct sc W hok i t a ht ha).2.2.2.2.2.2.2.1
  exact assignServer_no_aws servers t idx _ idx2 hassign
    (by simpa [LAMBDA_MAX_RUNTIME] using hrt) hex

/-- Witness for C3: the 700-second task of `wfC3`, translated over the
ring [AWS, GH] starting at the rejecting Lambda server, is bound to a
server not named "AWS". -/
theorem C3_long_tasks_avoid_rejecting_provider_witness :
    ComputeServer.name (SyntheticFaaSrAction.compute_server
      ((getOkW translatedC3).function_list.getD 0 emptyAction)) ≠ "AWS" :=
  C3_long_tasks_avoid_rejecting_provider rng0 wfC3 [aws0, gh0] "ds" "de"
    "bu" "re" "wr" "ff" [] 0 none (getOkW translatedC3) (by decide)
    ⟨gh0, by decide, by decide⟩ 0 t700
    ((getOkW translatedC3).function_list.getD 0 emptyAction)
    (by decide) (by decide) (by decide)

/-- C4: when the round-robin scan rejects all scanned candidates, the
task is bound — with no error — to the first configured provider with
no rejecting predicate (first one not named "AWS"), and if every
provider is named "AWS", to the first provider of the list
unconditionally. -/
theorem C4_exhausted_ring_fallback (servers : List ComputeServer)
    (t : Task) (idx : Nat) (hne : servers ≠ [])
    (hrej : (scanLoop servers t idx servers.length).1 = none) :
    ∃ s j, assignServer servers t idx = .ok (s, j) ∧
      ((∃ k : Nat, servers[k]? = some s ∧ s.name ≠ "AWS" ∧
          ∀ j' : Nat, j' < k → ∀ q, servers[j']? = some q →
            q.name = "AWS") ∨
       ((∀ q ∈ servers, q.name = "AWS") ∧ servers[0]? = some s)) := by
  cases hsc : scanLoop servers t idx servers.length with
  | mk fst snd =>
    rw [hsc] at hrej
    simp at hrej
    subst hrej
    cases hf : servers.find? (fun s => !(s.name == "AWS")) with
    | some p =>
      obtain ⟨k, hk, hp, hfirst⟩ := find?_first _ servers p hf
      refine ⟨p, snd, ?_, Or.inl ⟨k, hk, by simpa using hp, ?_⟩⟩
      · rw [assignServer, hsc, hf]
      · intro j' hj' q hq
        have := hfirst j' hj' q hq
        simpa using this
    | none =>
      have hall : ∀ q ∈ servers, q.name = "AWS" := by
        intro q hq
        have := List.find?_eq_none.mp hf q hq
        simpa using this
      rcases hserv : servers with _ | ⟨s0, rest⟩
      · exact absurd hserv hne
      · subst hserv
        refine ⟨s0, snd, ?_, Or.inr ⟨hall, by simp⟩⟩
        rw [assignServer, hsc, hf]
        simp

/-- Witness for C4: the ring [AWS] rejects the 700-second task at every
scanned position, and the task is nevertheless bound, without error, to
the first provider of the list. -/
theorem C4_exhausted_ring_fallback_witness :
    ∃ s j, assignServer [aws0] t700 0 = .ok (s, j) ∧
      ((∃ k : Nat, [aws0][k]? = some s ∧ s.name ≠ "AWS" ∧
          ∀ j' : Nat, j' < k → ∀ q, [aws0][j']? = some q →
            q.name = "AWS") ∨
       ((∀ q ∈ [aws0], q.name = "AWS") ∧ [aws0][0]? = some s)) :=
  C4_exhausted_ring_fallback [aws0] t700 0 (by decide) (by decide)

/-- C5: in a multi-provider translation over m providers with distinct
names where no eligibility predicate ever rejects any of the n tasks,
every provider is assigned either ⌊n/m⌋ or ⌈n/m⌉ = (n+m-1)/m of the
task-derived actions. -/
theorem C5_round_robin_fairness (rng : RandomGen)
    (workflow : WfFormatWorkflow) (servers : List ComputeServer)
    (ds de bu re wr ff : String) (repos : List (String × String))
    (pct : ℚ) (sc : Option Table) (W : SyntheticFaaSrWorkflow)
    (hok : translate_wf_to_faasr rng workflow (.list servers) ds de bu re
      wr ff repos pct sc = .ok W)
    (hnodup : (servers.map (fun s => s.name)).Nodup)
    (hne : servers ≠ [])
    (hnorej : ∀ t ∈ workflow.tasks, ∀ p ∈ servers,
      ¬(p.name = "AWS" ∧ (600 : ℚ) < t.runtime))
    (p : ComputeServer) (hp : p ∈ servers) :
    ((W.function_list.take workflow.tasks.length).countP
        (fun a => decide (a.compute_server.name = p.name)))
      = workflow.tasks.length / servers.length ∨
    ((W.function_list.take workflow.tasks.length).countP
        (fun a => decide (a.compute_server.name = p.name)))
      = (workflow.tasks.length + servers.length - 1) / servers.length := by
  have hm : 0 < servers.length := List.length_pos.mpr hne
  obtain ⟨fns, entries, s1, d1, htt, hcs, hfiles, hcase⟩ :=
    translate_ok_parts rng workflow (.list servers) ds de bu re wr ff
      repos pct sc W hok
  obtain ⟨hlen, -, -⟩ :=
    translateTasks_ok_spec rng (normalizeServers (.list servers)) pct sc
      workflow.tasks 0 0 fns entries s1 d1 htt
  have htt' : translateTasks rng servers pct sc workflow.tasks 0 0
      = .ok (fns, entries, s1, d1) := htt
  have htake : W.function_list.take workflow.tasks.length = fns := by
    rcases hcase with ⟨e, _, hfl, _⟩ | ⟨e, _, hfl, _⟩
    · rw [hfl, ← hlen, List.take_length]
    · rw [hfl, ← hlen, List.take_left]
  have htrace := translateTasks_trace rng servers pct sc hne
    workflow.tasks 0 0 fns entries s1 d1 htt'
    (by intro t ht q hq
        simpa [LAMBDA_MAX_RUNTIME] using hnorej t ht q hq)
  obtain ⟨jp, hjp, hget⟩ := List.mem_iff_getElem.mp hp
  have hA : fns.countP (fun a => decide (a.compute_server.name = p.name))
      = (List.range workflow.tasks.length).countP
          (fun i => decide (i % servers.length = jp)) := by
    have h1 : (fns.map (fun a => a.compute_server)).countP
        (fun c => decide (c.name = p.name))
        = fns.countP (fun a => decide (a.compute_server.name = p.name)) := by
      rw [List.countP_map]
      apply List.countP_congr
      intro a _
      exact Iff.rfl
    rw [← h1, htrace, List.countP_map]
    apply List.countP_congr
    intro i _
    simp only [Function.comp_apply]
    have hmlt : (0 + i) % servers.length < servers.length :=
      Nat.mod_lt _ hm
    rw [decide_eq_true_eq, decide_eq_true_eq]
    have key : ∀ k : Nat, k < servers.length →
        ((servers.getD k padServer).name = p.name ↔ k = jp) := by
      intro k hk
      rw [List.getD_eq_getElem?_getD, List.getElem?_eq_getElem hk,
        Option.getD_some]
      have hkm : k < (servers.map (fun s => s.name)).length := by
        simpa using hk
      have hjpm : jp < (servers.map (fun s => s.name)).length := by
        simpa using hjp
      constructor
      · intro hname
        have hmm : (servers.map (fun s => s.name))[k]
            = (servers.map (fun s => s.name))[jp] := by
          rw [List.getElem_map, List.getElem_map, hget]
          exact hname
        exact hnodup.getElem_inj_iff.mp hmm
      · intro hk2
        subst hk2
        rw [hget]
    rw [key _ hmlt, Nat.zero_add]
  rw [htake, hA,
    countP_range_mod servers.length jp hjp workflow.tasks.length,
    ceil_div_eq workflow.tasks.length servers.length hm]
  split_ifs <;> omega

/-- Witness for C5: three tasks over the two distinctly named
never-rejecting providers [GH, OW]; GH receives 2 = ⌈3/2⌉ of the three
task actions. -/
theorem C5_round_robin_fairness_witness :
    (((getOkW translatedC5).function_list.take wfC5.tasks.length).countP
        (fun a => decide (a.compute_server.name = gh0.name)))
      = wfC5.tasks.length / ([gh0, ow0] : List ComputeServer).length ∨
    (((getOkW translatedC5).function_list.take wfC5.tasks.length).countP
        (fun a => decide (a.compute_server.name = gh0.name)))
      = (wfC5.tasks.length + ([gh0, ow0] : List ComputeServer).length - 1)
          / ([gh0, ow0] : List ComputeServer).length :=
  C5_round_robin_fairness rng0 wfC5 [gh0, ow0] "ds" "de" "bu" "re" "wr"
    "ff" [] 0 none (getOkW translatedC5) (by decide) (by decide)
    (by decide) (by decide) gh0 (by decide)

/-- C6: when a source graph has k>1 parentless tasks, translation
creates exactly one synthetic root action appended after the task
actions (the function list has n+1 entries and the root is its last),
the root's `invoke_next` is exactly the k entry-candidate action names
in source task-list order, its execution time is 0, it is bound to the
first configured provider, and the returned graph's start function is
that synthetic root. -/
theorem C6_synthetic_root (rng : RandomGen) (workflow : WfFormatWorkflow)
    (arg : ComputeServersArg)
    (ds de bu re wr ff : String) (repos : List (String × String))
    (pct : ℚ) (sc : Option Table) (W : SyntheticFaaSrWorkflow)
    (hok : translate_wf_to_faasr rng workflow arg ds de bu re wr ff
      repos pct sc = .ok W)
    (hk : 2 ≤ (workflow.tasks.filter
      (fun t => t.parents.length == 0)).length) :
    ∃ e, W.function_list.length = workflow.tasks.length + 1 ∧
      W.function_list.getLast? = some e ∧
      W.start_function = some e ∧
      e.execution_time = 0 ∧
      e.invoke_next = (workflow.tasks.filter
        (fun t => t.parents.length == 0)).map
          (fun t => sanitize_action_name t.id) ∧
      (normalizeServers arg)[0]? = some e.compute_server := by
  obtain ⟨fns, entries, s1, d1, htt, hcs, hfiles, hcase⟩ :=
    translate_ok_parts rng workflow arg ds de bu re wr ff repos pct sc W hok
  obtain ⟨hlen, hmap, -⟩ :=
    translateTasks_ok_spec rng (normalizeServers arg) pct sc
      workflow.tasks 0 0 fns entries s1 d1 htt
  have hklen : 2 ≤ entries.length := by
    have := congrArg List.length hmap
    simp only [List.length_map] at this
    omega
  rcases hcase with ⟨e, he, hfl, hsf⟩ |
    ⟨e, h2, hfl, hsf, hexec, hinv, hname, hcs0⟩
  · rw [he] at hklen
    simp at hklen
  · refine ⟨e, ?_, ?_, hsf, hexec, ?_, hcs0⟩
    · rw [hfl]
      simp [hlen]
    · rw [hfl]
      exact List.getLast?_concat fns
    · rw [hinv]
      exact hmap

/-- Witness for C6: the two-root diamond `wfC6` translated over
[GH, OW] yields a last-appended synthetic root with execution time 0,
invoking the two sanitized entry candidates in task order, bound to the
first provider. -/
theorem C6_synthetic_root_witness :
    ∃ e, (getOkW translatedC6).function_list.length
        = wfC6.tasks.length + 1 ∧
      (getOkW translatedC6).function_list.getLast? = some e ∧
      (getOkW translatedC6).start_function = some e ∧
      e.execution_time = 0 ∧
      e.invoke_next = (wfC6.tasks.filter
        (fun t => t.parents.length == 0)).map
          (fun t => sanitize_action_name t.id) ∧
      (normalizeServers (.list [gh0, ow0]))[0]? = some e.compute_server :=
  C6_synthetic_root rng0 wfC6 (.list [gh0, ow0]) "ds" "de" "bu" "re"
    "wr" "ff" [] 0 none (getOkW translatedC6) (by decide) (by decide)

/-- C7: the claim says an action's sizes are summed from the file
manifest at serialization time and that a missing file name fails
serialization with a lookup error.  On the code serialization never
reaches size aggregation: `write_faasr_obj_to_json` fails with
AttributeError (the nonexistent `compute_server` attribute, writer.py
line 34) before the per-action loop, even on a workflow whose action
references a missing file name; in isolation the aggregation expression
of writer.py lines 74-79 does sum the manifest entries (30 for files
a+b, 0 for no files) and does raise KeyError on a missing name. -/
theorem C7_sizes_never_computed :
    write_faasr_obj_to_json wfC7 = .error .attributeError ∧
    sumFileSizes filesC7 ["a", "b"] = .ok 30 ∧
    sumFileSizes filesC7 [] = .ok 0 ∧
    sumFileSizes filesC7 ["a", "missing"] = .error .keyError := by
  refine ⟨by decide, by decide, by decide, by decide⟩

/-- C9: the claim says two translate-then-serialize runs with the same
seed produce byte-identical primary and file-size manifests.  On the
code no manifests are produced at all: translation succeeds (and is a
pure function of the seed's draw streams, hence deterministic), but
serialization fails with AttributeError before writing either
artifact. -/
theorem C9_pipeline_produces_no_manifests :
    translatedC2 = .ok (getOkW translatedC2) ∧
    pipelineC9 = .error .attributeError := by
  refine ⟨by decide, by decide⟩

/-- Characterization of a successful container selection: either no
table was given (default container), or the provider name is absent
from the table (default container), or both lookups succeed and return
the selected image. -/
theorem selectContainer_eq_ok (sc : Option Table) (nm ty c : String)
    (h : selectContainer sc nm ty = .ok c) :
    (sc = none ∧ c = defaultContainer) ∨
    (∃ tbl, sc = some tbl ∧ dictGet? tbl nm = none ∧
      c = defaultContainer) ∨
    (∃ tbl inner, sc = some tbl ∧ dictGet? tbl nm = some inner ∧
      dictGet? inner ty = some c) := by
  cases sc with
  | none =>
    left
    refine ⟨rfl, ?_⟩
    rw [selectContainer] at h
    simpa using h.symm
  | some tbl =>
    rw [selectContainer] at h
    split at h
    · right; left
      rename_i hemp
      refine ⟨tbl, rfl, ?_, by simpa using h.symm⟩
      rw [List.isEmpty_iff.mp hemp]
      rfl
    · split at h
      · right; left
        rename_i hnone
        exact ⟨tbl, rfl, hnone, by simpa using h.symm⟩
      · rename_i inner hinner
        split at h
        · rename_i img himg
          right; right
          refine ⟨tbl, inner, rfl, hinner, ?_⟩
          have himgc : img = c := by simpa using h
          rw [← himgc]
          exact himg
        · simp at h

/-- C8 counterexample: with a table mapping the provider "GH" only to
an R image, a task whose language is drawn as Python has its (provider,
language) entry absent from the table, and translation fails with a
lookup error instead of using the default container, refuting the
claim that an absent entry always falls back to the default. -/
theorem C8_counterexample_missing_language_key :
    translatedC8 = .error .keyError := by decide

/-- C8 (amended): an action's container image is the resolution-table
entry for (assigned provider name, drawn language) whenever the
provider name maps to an inner table containing the language; when the
provider name is absent from the table, or no table was given, the
fixed default container is used; but when the provider name is present
and the language key is absent, translation fails with a lookup error
(no action is produced; see the counterexample). -/
theorem C8_container_resolution (rng : RandomGen)
    (workflow : WfFormatWorkflow) (arg : ComputeServersArg)
    (ds de bu re wr ff : String) (repos : List (String × String))
    (pct : ℚ) (sc : Option Table) (W : SyntheticFaaSrWorkflow)
    (hok : translate_wf_to_faasr rng workflow arg ds de bu re wr ff
      repos pct sc = .ok W) :
    ∀ (i : Nat) (t : Task) (a : SyntheticFaaSrAction),
      workflow.tasks[i]? = some t → W.function_list[i]? = some a →
      (∀ tbl inner, sc = some tbl →
        dictGet? tbl a.compute_server.name = some inner →
        ∃ img, dictGet? inner a.type = some img ∧
          a.action_container = img) ∧
      (∀ tbl, sc = some tbl →
        dictGet? tbl a.compute_server.name = none →
        a.action_container = defaultContainer) ∧
      (sc = none → a.action_container = defaultContainer) := by
  intro i t a ht ha
  have hsel := (translate_ok_pointwise rng workflow arg ds de bu re wr ff
    repos pct sc W hok i t a ht ha).2.2.2.2.2.2.2.2
  have hchar := selectContainer_eq_ok sc a.compute_server.name a.type
    a.action_container hsel
  refine ⟨?_, ?_, ?_⟩
  · intro tbl inner hsc hinner
    rcases hchar with ⟨hn, _⟩ | ⟨tbl', hsome, hnone, _⟩ |
      ⟨tbl', inner', hsome, hsome2, himg⟩
    · rw [hsc] at hn; cases hn
    · rw [hsc] at hsome
      cases hsome
      rw [hinner] at hnone
      cases hnone
    · rw [hsc] at hsome
      cases hsome
      rw [hinner] at hsome2
      cases hsome2
      exact ⟨a.action_container, himg, rfl⟩
  · intro tbl hsc hnone
    rcases hchar with ⟨hn, _⟩ | ⟨tbl', hsome, _, hdef⟩ |
      ⟨tbl', inner', hsome, hsome2, _⟩
    · rw [hsc] at hn; cases hn
    · exact hdef
    · rw [hsc] at hsome
      cases hsome
      rw [hnone] at hsome2
      cases hsome2
  · intro hn
    rcases hchar with ⟨_, hdef⟩ | ⟨tbl', hsome, _, _⟩ |
      ⟨tbl', inner', hsome, _, _⟩
    · exact hdef
    · rw [hn] at hsome; cases hsome
    · rw [hn] at hsome; cases hsome

/-- Witness for the amended C8 at the concrete run `translatedC8ok`:
the table maps GH to both languages, the drawn language is Python, and
the action's container is the table's (GH, Python) image. -/
theorem C8_container_resolution_witness :
    (∀ tbl inner, (some tableC8ok : Option Table) = some tbl →
      dictGet? tbl actionC8.compute_server.name = some inner →
      ∃ img, dictGet? inner actionC8.type = some img ∧
        actionC8.action_container = img) ∧
    (∀ tbl, (some tableC8ok : Option Table) = some tbl →
      dictGet? tbl actionC8.compute_server.name = none →
      actionC8.action_container = defaultContainer) ∧
    ((some tableC8ok : Option Table) = none →
      actionC8.action_container = defaultContainer) :=
  C8_container_resolution rng0 wfC2 (.list [gh0]) "ds" "de" "bu" "re"
    "wr" "ff" [] 100 (some tableC8ok) (getOkW translatedC8ok)
    (by decide) 0 taskC2 actionC8 (by decide) (by decide)

/-- C10: eligibility during the round-robin scan is decided solely by
the provider's configured name string, not its variant: the scan is
invariant under any change of the providers that preserves their names
(first conjunct), and the candidate at the cursor is accepted if and
only if it is not both named "AWS" and facing a task with runtime over
600 — so a Lambda-variant provider under another name accepts every
task, and a non-Lambda provider named "AWS" rejects long tasks (second
conjunct). -/
theorem C10_eligibility_by_name_only :
    (∀ (f : ComputeServer → ComputeServer), (∀ s, (f s).name = s.name) →
      ∀ (servers : List ComputeServer) (t : Task) (idx fuel : Nat),
        scanLoop (servers.map f) t idx fuel
          = (((scanLoop servers t idx fuel).1).map f,
             (scanLoop servers t idx fuel).2)) ∧
    (∀ (servers : List ComputeServer) (t : Task) (idx fuel : Nat)
        (c : ComputeServer),
        servers[idx % servers.length]? = some c →
        (scanLoop servers t idx (fuel + 1) = (some c, idx + 1) ↔
          ¬(c.name = "AWS" ∧ (600 : ℚ) < t.runtime))) := by
  constructor
  · intro f hf servers t idx fuel
    induction fuel generalizing idx with
    | zero => simp [scanLoop]
    | succ fuel ih =>
      cases hc : servers[idx % servers.length]? with
      | none =>
        rw [scanLoop, scanLoop, List.length_map, List.getElem?_map, hc]
        simp
      | some c =>
        have hcf : (servers.map f)[idx % (servers.map f).length]?
            = some (f c) := by
          rw [List.length_map, List.getElem?_map, hc]
          rfl
        by_cases hr : c.name = "AWS" ∧ LAMBDA_MAX_RUNTIME < t.runtime
        · have hrf : (f c).name = "AWS" ∧ LAMBDA_MAX_RUNTIME < t.runtime := by
            rw [hf c]
            exact hr
          have hstepL : scanLoop (servers.map f) t idx (fuel + 1)
              = scanLoop (servers.map f) t (idx + 1) fuel := by
            rw [scanLoop, hcf]
            exact if_pos hrf
          have hstepR : scanLoop servers t idx (fuel + 1)
              = scanLoop servers t (idx + 1) fuel := by
            rw [scanLoop, hc]
            exact if_pos hr
          rw [hstepL, hstepR]
          exact ih (idx + 1)
        · have hrf : ¬((f c).name = "AWS" ∧ LAMBDA_MAX_RUNTIME < t.runtime) := by
            rw [hf c]
            exact hr
          rw [scanLoop_accept (servers.map f) t fuel idx (f c) hcf hrf,
            scanLoop_accept servers t fuel idx c hc hr]
          rfl
  · intro servers t idx fuel c hc
    constructor
    · intro heq
      by_cases hr : c.name = "AWS" ∧ LAMBDA_MAX_RUNTIME < t.runtime
      · exfalso
        have hstep : scanLoop servers t idx (fuel + 1)
            = scanLoop servers t (idx + 1) fuel := by
          rw [scanLoop, hc]
          exact if_pos hr
        rw [hstep] at heq
        have := scanLoop_some_lt servers t fuel (idx + 1) c (idx + 1) heq
        omega
      · simpa [LAMBDA_MAX_RUNTIME] using hr
    · intro hnr
      exact scanLoop_accept servers t fuel idx c hc
        (by simpa [LAMBDA_MAX_RUNTIME] using hnr)

/-- Witness for C10: a Lambda-variant provider named "L" accepts a
1000-second task at the cursor, while a GitHub-Actions-variant provider
named "AWS" does not. -/
theorem C10_eligibility_by_name_only_witness :
    scanLoop [lambdaL] t1000 0 1 = (some lambdaL, 1) ∧
    ¬(scanLoop [ghNamedAWS] t1000 0 1 = (some ghNamedAWS, 1)) := by
  constructor
  · exact (C10_eligibility_by_name_only.2 [lambdaL] t1000 0 0 lambdaL
      (by decide)).mpr (by decide)
  · intro h
    exact (C10_eligibility_by_name_only.2 [ghNamedAWS] t1000 0 0
      ghNamedAWS (by decide)).mp h (by decide)

end FaaSr
